import Mathlib

/-!
Verification of the Deep Dive workspace of the DeepSense frontend
(`src/Frontend/src/pages/DeepDive.tsx` together with the refactored
`src/Frontend/src/pages/Deepdive/index.tsx`).

The workspace is a single-threaded, event-driven React component.  We embed it
shallowly: each React `useState` cell becomes a field of a state structure, and
each event handler becomes a pure function from state to state (plus, for the
chat submission, an explicit list of emitted effects in program order).
JavaScript numbers are modelled as rationals (`ℚ`); note that Lean's `ℚ` uses
the total-division convention `x / 0 = 0` where JavaScript would produce
`NaN`/`Infinity` — the claims below only concern positive track widths and
durations, where the two agree.

The two files are two revisions of the same screen and are modelled
separately, since their behavior differs: `DeepDive.tsx` (the component
mounted by `App.tsx`) has the clear-chat effect and the audio drag handlers
but no batch removal; the refactored `Deepdive/index.tsx` has batch removal
(`handleDeleteSelected`) but registers no effect on `selectedPapers` — in
particular no clear-chat effect — anywhere in the component or its children.
Handlers present in both files are textually identical.

Handlers invoked through document-level listeners need one further piece of
React semantics: the `mousemove`/`mouseup` listeners are registered by a
`useEffect` whose dependency array is `[isDragging]`, so for the whole
duration of a drag they hold the closures created by the render in which the
drag started.  Those closures read the state values (`isDragging`,
`currentTime`, `duration`) captured by that render — the snapshot — while ref
reads (`progressRef`, `audioRef`) are live and the `useState` setters update
the real, current state.  The `*Listener` functions below take the snapshot
and the real state as separate arguments to make this capture explicit.
-/

namespace DeepSense

/-- The `Paper` interface of `DeepDive.tsx` (lines 13–23) /
`Deepdive/index.tsx` (lines 21–31). -/
structure Paper where
  id : String
  title : String
  authors : List String
  conference : String
  year : Nat
  abstract : String
  keywords : List String
  citations : Nat
  organization : String
deriving DecidableEq, Repr

/-- The `ChatMessage` interface (`DeepDive.tsx` lines 25–28): one transcript
turn, outgoing `message` plus a `response` that is `""` until resolved. -/
structure ChatMessage where
  message : String
  response : String
deriving DecidableEq, Repr

/-- The selection/chat part of the component state: the `useState` cells
`papers`, `selectedPapers`, `messages`, `inputMessage` of the `DeepDive`
component. -/
structure DState where
  papers : List Paper
  selectedPapers : List String
  messages : List ChatMessage
  inputMessage : String
deriving DecidableEq, Repr

/-- `handlePaperSelect` (`DeepDive.tsx` 258–264, `Deepdive/index.tsx` 71–77),
restricted to the `selectedPapers` cell it updates:
`prev.includes(paperId) ? prev.filter((id) => id !== paperId) : [...prev, paperId]`. -/
def toggleSel (paperId : String) (prev : List String) : List String :=
  if prev.contains paperId then prev.filter (fun id => id != paperId)
  else prev ++ [paperId]

/-- `handlePaperSelect` acting on the whole workspace state. -/
def handlePaperSelect (paperId : String) (s : DState) : DState :=
  { s with selectedPapers := toggleSel paperId s.selectedPapers }

/-- `handleSelectAll` (`DeepDive.tsx` 250–256, `Deepdive/index.tsx` 63–69):
if every paper is selected, deselect all, else select all paper ids. -/
def handleSelectAll (s : DState) : DState :=
  if s.selectedPapers.length = s.papers.length then
    { s with selectedPapers := [] }
  else
    { s with selectedPapers := s.papers.map (fun paper => paper.id) }

/-- `handleDeselectAll` (`DeepDive.tsx` 266–268): clear the selection. -/
def handleDeselectAll (s : DState) : DState :=
  { s with selectedPapers := [] }

/-- `handleDeleteSelected` (`Deepdive/index.tsx` 79–86): early return when
nothing is selected; otherwise drop the selected papers from the collection
and empty the selection. -/
def handleDeleteSelected (s : DState) : DState :=
  if s.selectedPapers.isEmpty then s
  else
    { s with
      papers := s.papers.filter (fun paper => !(s.selectedPapers.contains paper.id)),
      selectedPapers := [] }

/-- The clear-chat `useEffect` of the workspace coordinator (`DeepDive.tsx`
241–243): `setMessages([])`, with dependency array `[selectedPapers]`. -/
def clearChatEffect (s : DState) : DState :=
  { s with messages := [] }

/-- The selection-mutating events a user can fire in `DeepDive.tsx`, the
component mounted by `App.tsx`: per-paper toggle, the select-all checkbox and
the deselect-all button.  This file implements no batch removal. -/
inductive SelEvent where
  | toggle (id : String)
  | selectAll
  | clear
deriving DecidableEq, Repr

/-- The selection-mutating events a user can fire in the refactored
`Deepdive/index.tsx`: per-paper toggle, the select-all checkbox and batch
removal of the selected papers.  This file implements no standalone
deselect-all. -/
inductive SelEventIdx where
  | toggle (id : String)
  | selectAll
  | remove
deriving DecidableEq, Repr

/-- Processing one `DeepDive.tsx` selection event to quiescence.  React
re-runs the clear-chat effect (`DeepDive.tsx` 241–243, dependency array
`[selectedPapers]`) after any commit in which `selectedPapers` changed
reference; each of these three handlers installs a fresh array, so the effect
fires after every event. -/
def stepSel : SelEvent → DState → DState
  | .toggle id, s => clearChatEffect (handlePaperSelect id s)
  | .selectAll, s => clearChatEffect (handleSelectAll s)
  | .clear, s => clearChatEffect (handleDeselectAll s)

/-- Processing one `Deepdive/index.tsx` selection event to quiescence.
Neither this component nor its children (`Sources`, `Chat`, `Studio`)
registers any effect on `selectedPapers` — there is no clear-chat effect in
this file — so the handler alone is the whole step. -/
def stepSelIdx : SelEventIdx → DState → DState
  | .toggle id, s => handlePaperSelect id s
  | .selectAll, s => handleSelectAll s
  | .remove, s => handleDeleteSelected s

/-- JavaScript `Array.prototype.map` whose callback also receives the element
index, starting from `i`. -/
def mapWithIndex (f : Nat → ChatMessage → ChatMessage) :
    Nat → List ChatMessage → List ChatMessage
  | _, [] => []
  | i, msg :: rest => f i msg :: mapWithIndex f (i + 1) rest

/-- The transcript update common to both resolution branches of
`handleSendMessage` (`DeepDive.tsx` 303–309 and 315–324):
`prev.map((msg, idx) => idx === prev.length - 1 ? {message, response} : msg)`.
The turn at the last position is replaced wholesale with the resolving
request's captured message text and the new response. -/
def resolveLast (message response : String) (prev : List ChatMessage) :
    List ChatMessage :=
  mapWithIndex
    (fun idx msg =>
      if idx = prev.length - 1 then { message := message, response := response }
      else msg)
    0 prev

/-- Success branch: the last turn receives the server's `data.response`. -/
def resolveSuccess (message response : String) (prev : List ChatMessage) :
    List ChatMessage :=
  resolveLast message response prev

/-- The fixed fallback string of the failure branch. -/
def fallbackText : String := "Sorry, there was an error processing your message."

/-- Failure branch (network error or `!response.ok`): the last turn receives
the fixed fallback string. -/
def resolveFailure (message : String) (prev : List ChatMessage) :
    List ChatMessage :=
  resolveLast message fallbackText prev

/-- The externally visible effects of the synchronous part of
`handleSendMessage`, in program order. -/
inductive ChatEffect where
  | appendTurn (turn : ChatMessage)
  | clearInput
  | request (message : String)
deriving DecidableEq, Repr

/-- The guard `!inputMessage.trim()` of `handleSendMessage`: JavaScript
`trim()` strips leading and trailing whitespace, so the trimmed string is
empty (falsy) exactly when every character of the input is whitespace. -/
def trimsToEmpty (text : String) : Bool :=
  text.data.all Char.isWhitespace

/-- `handleSendMessage` (`DeepDive.tsx` 270–282, `Deepdive/index.tsx` 88–97),
synchronous part: early return when the input trims to empty; otherwise append
the pending turn, clear the input buffer, then dispatch the single `fetch`
carrying the captured input text.  The returned effect list records the
statements in source order. -/
def handleSendMessage (s : DState) : DState × List ChatEffect :=
  if trimsToEmpty s.inputMessage then (s, [])
  else
    (({ s with
        messages := s.messages ++ [{ message := s.inputMessage, response := "" }],
        inputMessage := "" }),
     [ChatEffect.appendTurn { message := s.inputMessage, response := "" },
      ChatEffect.clearInput,
      ChatEffect.request s.inputMessage])

/-- The SelectionSet↦collection invariant of spec §3: every selected id
references a paper present in the loaded collection. -/
def selectionInvariant (s : DState) : Prop :=
  ∀ pid ∈ s.selectedPapers, ∃ p ∈ s.papers, p.id = pid

instance (s : DState) : Decidable (selectionInvariant s) := by
  unfold selectionInvariant; infer_instance

/-- The bounding rectangle of the progress track (`getBoundingClientRect`),
restricted to the fields the handlers read. -/
structure Rect where
  left : ℚ
  width : ℚ
deriving DecidableEq, Repr

/-- The audio part of the component state.  `media` is the `<audio>` element's
`currentTime` when the element is mounted (`audioRef.current` non-null), `none`
otherwise.  `mediaWrites` is the log of every assignment
`audioRef.current.currentTime = v` performed so far, in order — the
instrumentation needed to state "the media position is written exactly once". -/
structure AudioState where
  isPlaying : Bool
  currentTime : ℚ
  duration : ℚ
  isDragging : Bool
  media : Option ℚ
  mediaWrites : List ℚ
deriving DecidableEq, Repr

/-- The effect of `audioRef.current.currentTime = v`: move the mounted media
element to `v` and log the write. -/
def writeMedia (v : ℚ) (s : AudioState) : AudioState :=
  { s with media := some v, mediaWrites := s.mediaWrites ++ [v] }

/-- `handleProgressClick` (`DeepDive.tsx` 348–359, identical in
`Deepdive/index.tsx` 148–159): guarded by `progressRef.current && !isDragging`;
`x = e.clientX - rect.left` (note: not clamped), `percentage = x / rect.width`,
`newTime = percentage * duration`; sets `currentTime` and, when the media
element is mounted, forwards `newTime` to it. -/
def handleProgressClick (clientX : ℚ) (progress : Option Rect) (s : AudioState) :
    AudioState :=
  match progress with
  | none => s
  | some rect =>
      if s.isDragging then s
      else
        let x := clientX - rect.left
        let percentage := x / rect.width
        let newTime := percentage * s.duration
        let s1 := { s with currentTime := newTime }
        match s1.media with
        | some _ => writeMedia newTime s1
        | none => s1

/-- `handleDragStart` (`DeepDive.tsx` 361–363): `setIsDragging(true)`. -/
def handleDragStart (s : AudioState) : AudioState :=
  { s with isDragging := true }

/-- `handleDragEnd` (`DeepDive.tsx` 375–381), reading its own render's state:
guarded by `isDragging && audioRef.current`;
`percentage = currentTime / duration`, forwards `percentage * duration` to
the media element and sets `isDragging = false`.  When the guard fails
nothing at all happens.  As reached through the document-level `mouseup`
listener the state reads come from the drag-start render's snapshot instead —
see `handleDragEndListener`; the distinction is immaterial when the guard
fails on the live ref (`media = none`), which reads no drifting data. -/
def handleDragEnd (s : AudioState) : AudioState :=
  match s.media with
  | none => s
  | some _ =>
      if s.isDragging then
        let percentage := s.currentTime / s.duration
        { writeMedia (percentage * s.duration) s with isDragging := false }
      else s

/-- `handleDrag` (`DeepDive.tsx` 365–373) as invoked through the
document-level `mousemove` listener (`DeepDive.tsx` 390–397): the listener
was registered by the `useEffect` keyed on `[isDragging]`, so it holds the
drag-start render's closure.  State reads (`isDragging`, `duration`) come
from that render's snapshot `snap`; `progressRef` is a live ref, the event's
`clientX` is live, and `setCurrentTime` updates the real state `s`.  The body
is the source's: `x = Math.max(0, Math.min(e.clientX - rect.left,
rect.width))`, `percentage = x / rect.width`,
`setCurrentTime(percentage * duration)`; the media element is not touched. -/
def handleDragListener (snap : AudioState) (clientX : ℚ)
    (progress : Option Rect) (s : AudioState) : AudioState :=
  match progress with
  | none => s
  | some rect =>
      if snap.isDragging then
        let x := max 0 (min (clientX - rect.left) rect.width)
        let percentage := x / rect.width
        { s with currentTime := percentage * snap.duration }
      else s

/-- `handleDragEnd` as invoked through the document-level `mouseup` listener
(`DeepDive.tsx` 384–388): the listener's closure was created by the
drag-start render, so `isDragging`, `currentTime` and `duration` are read
from that render's snapshot `snap` — in particular `snap.currentTime` is the
pre-drag position, untouched by the intermediate `setCurrentTime` calls —
while `audioRef` is a live ref and the write and `setIsDragging(false)`
affect the real state `s`. -/
def handleDragEndListener (snap : AudioState) (s : AudioState) : AudioState :=
  match s.media with
  | none => s
  | some _ =>
      if snap.isDragging then
        let percentage := snap.currentTime / snap.duration
        { writeMedia (percentage * snap.duration) s with isDragging := false }
      else s

/-- The pointer moves of a drag, delivered in order by the captured
`mousemove` listener. -/
def processDragListener (snap : AudioState) (rect : Rect) (moves : List ℚ)
    (s : AudioState) : AudioState :=
  moves.foldl (fun st cx => handleDragListener snap cx (some rect) st) s

/-- A whole drag gesture from state `s0`: `mousedown` runs `handleDragStart`,
the re-render with `isDragging = true` re-runs the listener effect
(dependency `[isDragging]` changed), capturing that render's state as the
listeners' snapshot; each `mousemove` then runs the captured `handleDrag`
and `mouseup` runs the captured `handleDragEnd`.  The snapshot is not
refreshed during the drag, because the intermediate `setCurrentTime` commits
leave `isDragging` unchanged. -/
def dragGesture (rect : Rect) (moves : List ℚ) (s0 : AudioState) : AudioState :=
  let snap := handleDragStart s0
  handleDragEndListener snap (processDragListener snap rect moves snap)

/-- `clamp(x, 0, 1)` as used by the spec's fraction formula. -/
def clamp01 (x : ℚ) : ℚ := max 0 (min x 1)

/-! ### Concrete fixtures used by witnesses and counterexamples -/

/-- A concrete paper with identifier `"p1"`. -/
def paperP1 : Paper := ⟨"p1", "t1", [], "c", 2024, "a", [], 0, "o"⟩

/-- A concrete paper with identifier `"p2"`. -/
def paperP2 : Paper := ⟨"p2", "t2", [], "c", 2024, "a", [], 0, "o"⟩

/-! ### C1 — selection mutations and the chat transcript -/

/-- Counterexample to C1 as stated: batch removal is implemented only in
`Deepdive/index.tsx`, which contains no clear-chat effect.  Removing the
selected paper `"p1"` there really mutates the selection set (selection and
collection both become empty) yet leaves the nonempty transcript untouched
instead of emptying it. -/
theorem removal_does_not_clear_transcript :
    (stepSelIdx SelEventIdx.remove
        ⟨[paperP1], ["p1"], [⟨"hi", "there"⟩], ""⟩).selectedPapers = [] ∧
    (stepSelIdx SelEventIdx.remove
        ⟨[paperP1], ["p1"], [⟨"hi", "there"⟩], ""⟩).papers = [] ∧
    (stepSelIdx SelEventIdx.remove
        ⟨[paperP1], ["p1"], [⟨"hi", "there"⟩], ""⟩).messages
      = [⟨"hi", "there"⟩] ∧
    (stepSelIdx SelEventIdx.remove
        ⟨[paperP1], ["p1"], [⟨"hi", "there"⟩], ""⟩).messages ≠ [] := by
  decide

/-- **C1 (amended).** In `DeepDive.tsx`, every selection mutation implemented
there (toggle, select-all, deselect-all) is followed by the clear-chat
effect, so immediately after the mutation is processed the transcript is the
empty list regardless of its prior contents.  Batch removal of selected
papers exists only in the refactored `Deepdive/index.tsx`, which has no
clear-chat effect at all: there, no selection mutation — removal included —
ever changes the transcript. -/
theorem selection_mutation_clears_transcript :
    (∀ (s : DState) (e : SelEvent), (stepSel e s).messages = []) ∧
    (∀ (s : DState) (e : SelEventIdx), (stepSelIdx e s).messages = s.messages) := by
  constructor
  · intro s e
    cases e <;> simp [stepSel, clearChatEffect]
  · intro s e
    cases e with
    | toggle id => rfl
    | selectAll =>
        by_cases h : s.selectedPapers.length = s.papers.length <;>
          simp [stepSelIdx, handleSelectAll, h]
    | remove =>
        by_cases h : s.selectedPapers.isEmpty = true <;>
          simp [stepSelIdx, handleDeleteSelected, h]

/-! ### C5 — submit: no-op on blank input, otherwise one optimistic append
and exactly one request -/

/-- `true` exactly on the `request` effect. -/
def ChatEffect.isRequest : ChatEffect → Bool
  | .request _ => true
  | _ => false

/-- **C5.** `submit` is a no-op (state unchanged, no effects) when the input
trims to empty; otherwise it appends exactly one new pending turn carrying the
input text verbatim, clears the input buffer, leaves every other state cell
alone, and the effect trace is: append, clear input, then the single outbound
request — so both local mutations precede the dispatch and exactly one request
is issued per invocation. -/
theorem submit_noop_or_single_request (s : DState) :
    if trimsToEmpty s.inputMessage then handleSendMessage s = (s, [])
    else
      (handleSendMessage s).1.messages
          = s.messages ++ [{ message := s.inputMessage, response := "" }] ∧
      (handleSendMessage s).1.inputMessage = "" ∧
      (handleSendMessage s).1.papers = s.papers ∧
      (handleSendMessage s).1.selectedPapers = s.selectedPapers ∧
      (handleSendMessage s).2
          = [ChatEffect.appendTurn { message := s.inputMessage, response := "" },
             ChatEffect.clearInput,
             ChatEffect.request s.inputMessage] ∧
      ((handleSendMessage s).2.filter ChatEffect.isRequest).length = 1 := by
  by_cases h : trimsToEmpty s.inputMessage <;>
    simp [handleSendMessage, h, ChatEffect.isRequest]

/-- Witness for C5: a blank submission is a no-op, and submitting `"hello"`
appends the pending turn and issues exactly one request. -/
theorem submit_noop_or_single_request_witness :
    handleSendMessage ⟨[], [], [], "   "⟩ = (⟨[], [], [], "   "⟩, []) ∧
    (handleSendMessage ⟨[], [], [], "hello"⟩).2
        = [ChatEffect.appendTurn ⟨"hello", ""⟩, ChatEffect.clearInput,
           ChatEffect.request "hello"] := by
  have h1 := submit_noop_or_single_request ⟨[], [], [], "   "⟩
  have h2 := submit_noop_or_single_request ⟨[], [], [], "hello"⟩
  rw [if_pos (by decide)] at h1
  rw [if_neg (by decide)] at h2
  exact ⟨h1, h2.2.2.2.2.1⟩

/-! ### C6 — selectAll is a none/all toggle -/

/-- **C6.** `handleSelectAll` empties the selection when its size equals the
paper count and otherwise replaces it with the full id list; in particular on
the collection `[p1, p2]` with both already selected via two toggles, invoking
it yields the empty selection. -/
theorem selectAll_none_all_toggle (s : DState) :
    (handleSelectAll s).selectedPapers
        = (if s.selectedPapers.length = s.papers.length then []
           else s.papers.map (fun paper => paper.id)) ∧
    (handleSelectAll (handlePaperSelect "p2" (handlePaperSelect "p1"
        ⟨[paperP1, paperP2], [], [], ""⟩))).selectedPapers = [] := by
  constructor
  · by_cases h : s.selectedPapers.length = s.papers.length <;>
      simp [handleSelectAll, h]
  · decide

/-! ### C7 — toggles are parity: the selection is the odd-count set -/

/-- A finite sequence of `toggle` events applied in order, as delivered by the
per-paper checkboxes. -/
def applyToggles (ids : List String) (sel : List String) : List String :=
  ids.foldl (fun cur id => toggleSel id cur) sel

/-- `toggleSel` flips membership of the toggled id and leaves every other id's
membership unchanged. -/
theorem mem_toggleSel (id x : String) (sel : List String) :
    x ∈ toggleSel id sel ↔ ((x = id ∧ id ∉ sel) ∨ (x ≠ id ∧ x ∈ sel)) := by
  by_cases h : id ∈ sel
  · rw [toggleSel, if_pos (by simpa using h)]
    by_cases hx : x = id <;> simp [List.mem_filter, hx, h]
  · rw [toggleSel, if_neg (by simpa using h)]
    by_cases hx : x = id <;> simp [hx, h]

theorem mem_applyToggles (ids : List String) (sel : List String) (x : String) :
    x ∈ applyToggles ids sel ↔ Xor' (x ∈ sel) (Odd (ids.count x)) := by
  induction ids generalizing sel with
  | nil => simp [applyToggles, Xor', Nat.odd_iff]
  | cons i rest ih =>
      have hstep : applyToggles (i :: rest) sel = applyToggles rest (toggleSel i sel) := rfl
      rw [hstep, ih, mem_toggleSel]
      by_cases hx : x = i
      · subst hx
        have hc : (x :: rest).count x = rest.count x + 1 := by
          simp [List.count_cons]
        rw [hc, Nat.odd_add_one]
        by_cases hmem : x ∈ sel <;> by_cases hodd : Odd (rest.count x) <;>
          simp [Xor', hmem, hodd]
      · have hc : (i :: rest).count x = rest.count x := by
          simp [List.count_cons, hx]
        rw [hc]
        simp [hx]

/-- **C7.** Starting from the empty selection, any finite sequence of toggles
yields exactly the set of ids toggled an odd number of times; and toggling the
same id twice in succession restores the selection's membership. -/
theorem toggles_are_parity :
    (∀ (ids : List String) (x : String),
        x ∈ applyToggles ids [] ↔ Odd (ids.count x)) ∧
    (∀ (sel : List String) (id x : String),
        x ∈ toggleSel id (toggleSel id sel) ↔ x ∈ sel) := by
  constructor
  · intro ids x
    rw [mem_applyToggles]
    simp [Xor']
  · intro sel i x
    simp only [mem_toggleSel]
    by_cases hx : x = i <;> by_cases hm : i ∈ sel <;> by_cases hx2 : x ∈ sel <;>
      simp_all

/-! ### C4 — resolution rewrites the last transcript slot only -/

/-- Replacing the entry whose index equals `n` in a list laid out from start
index `i`, when `n` is exactly the last index, replaces the last element. -/
theorem mapWithIndex_set_last (t : ChatMessage) (l : List ChatMessage)
    (i n : Nat) (hl : l ≠ []) (hn : i + l.length = n + 1) :
    mapWithIndex (fun idx msg => if idx = n then t else msg) i l
      = l.dropLast ++ [t] := by
  induction l generalizing i with
  | nil => exact absurd rfl hl
  | cons a rest ih =>
      cases rest with
      | nil =>
          have hi : i = n := by simpa using hn
          simp [mapWithIndex, hi]
      | cons b rest' =>
          have hi : i ≠ n := by
            simp only [List.length_cons] at hn
            omega
          have hrec := ih (i + 1) (by simp)
            (by simp only [List.length_cons] at hn ⊢; omega)
          rw [show mapWithIndex (fun idx msg => if idx = n then t else msg) i
                (a :: b :: rest')
              = (if i = n then t else a)
                  :: mapWithIndex (fun idx msg => if idx = n then t else msg)
                    (i + 1) (b :: rest') from rfl,
            hrec, if_neg hi]
          rfl

/-- For a nonempty transcript, the resolution map is: keep all but the last
entry, replace the last entry with the resolved turn. -/
theorem resolveLast_eq (m r : String) (prev : List ChatMessage)
    (h : prev ≠ []) :
    resolveLast m r prev = prev.dropLast ++ [{ message := m, response := r }] := by
  have hlen : 1 ≤ prev.length := List.length_pos.mpr h
  exact mapWithIndex_set_last _ prev 0 (prev.length - 1) h (by omega)

/-- **C4.** For every nonempty transcript, successful resolution sets the last
turn's response to the server text, failed resolution sets it to the fixed
fallback string, and in both cases the transcript keeps its length and every
turn before the last is untouched. -/
theorem resolution_targets_last_turn (prev : List ChatMessage) (m r : String)
    (h : prev ≠ []) :
    (resolveSuccess m r prev).length = prev.length ∧
    ((resolveSuccess m r prev).getLast?).map ChatMessage.response = some r ∧
    (∀ i, i + 1 < prev.length → (resolveSuccess m r prev)[i]? = prev[i]?) ∧
    (resolveFailure m prev).length = prev.length ∧
    ((resolveFailure m prev).getLast?).map ChatMessage.response
        = some fallbackText ∧
    (∀ i, i + 1 < prev.length → (resolveFailure m prev)[i]? = prev[i]?) := by
  have hlen : 1 ≤ prev.length := List.length_pos.mpr h
  have hs := resolveLast_eq m r prev h
  have hf := resolveLast_eq m fallbackText prev h
  have hdrop : prev.dropLast.length = prev.length - 1 := List.length_dropLast prev
  have hpre : ∀ i, i + 1 < prev.length →
      (prev.dropLast ++ [({ message := m, response := r } : ChatMessage)])[i]?
        = prev[i]? ∧
      (prev.dropLast ++ [({ message := m, response := fallbackText } : ChatMessage)])[i]?
        = prev[i]? := by
    intro i hi
    have hilt : i < prev.dropLast.length := by
      rw [List.length_dropLast]; omega
    have hd : prev.dropLast[i]? = prev[i]? := by
      rw [List.dropLast_eq_take, List.getElem?_take, if_pos (by omega)]
    constructor <;> rw [List.getElem?_append_left hilt] <;> exact hd
  refine ⟨?_, ?_, ?_, ?_, ?_, ?_⟩
  · rw [resolveSuccess, hs]; simp; omega
  · rw [resolveSuccess, hs, List.getLast?_concat]; rfl
  · intro i hi; rw [resolveSuccess, hs]; exact (hpre i hi).1
  · rw [resolveFailure, hf]; simp; omega
  · rw [resolveFailure, hf, List.getLast?_concat]; rfl
  · intro i hi; rw [resolveFailure, hf]; exact (hpre i hi).2

/-- Witness for C4: on the transcript `[⟨"a","b"⟩, ⟨"q",""⟩]`, success writes
`"R"` into the last slot and failure writes the fallback text, leaving slot 0
untouched. -/
theorem resolution_targets_last_turn_witness :
    ((resolveSuccess "q" "R" [⟨"a", "b"⟩, ⟨"q", ""⟩]).getLast?).map
        ChatMessage.response = some "R" ∧
    (resolveSuccess "q" "R" [⟨"a", "b"⟩, ⟨"q", ""⟩])[0]? = some ⟨"a", "b"⟩ ∧
    ((resolveFailure "q" [⟨"a", "b"⟩, ⟨"q", ""⟩]).getLast?).map
        ChatMessage.response = some fallbackText := by
  have h := resolution_targets_last_turn [⟨"a", "b"⟩, ⟨"q", ""⟩] "q" "R"
    (by simp)
  refine ⟨h.2.1, ?_, h.2.2.2.2.1⟩
  rw [h.2.2.1 0 (by simp)]
  rfl

/-! ### C8 — the selection/collection invariant -/

/-- Counterexample to C8 as stated: `toggle` is total over any id, so toggling
an id absent from the collection (here `"ghost"` against the collection
`[paperP1]`) breaks the invariant that every selected id references a loaded
paper. -/
theorem selection_invariant_broken_by_foreign_toggle :
    selectionInvariant ⟨[paperP1], [], [], ""⟩ ∧
    ¬ selectionInvariant
        (stepSel (SelEvent.toggle "ghost") ⟨[paperP1], [], [], ""⟩) := by
  decide

/-- The invariant only reads the `papers` and `selectedPapers` cells, so the
clear-chat effect is inert for it. -/
theorem selectionInvariant_clearChatEffect (s : DState) :
    selectionInvariant (clearChatEffect s) ↔ selectionInvariant s :=
  Iff.rfl

/-- **C8 (amended).** In both components, the invariant is preserved by
select-all, deselect-all and batch removal unconditionally, and by `toggle`
provided the toggled id references a paper in the loaded collection — which
is the case at every UI call site, since the toggle checkboxes are rendered
only for loaded papers; it is not preserved by `toggle` on an arbitrary
foreign id. -/
theorem selection_invariant_preserved (s : DState) (em : SelEvent)
    (ei : SelEventIdx) (hs : selectionInvariant s)
    (hm : ∀ pid, em = SelEvent.toggle pid → ∃ p ∈ s.papers, p.id = pid)
    (hi : ∀ pid, ei = SelEventIdx.toggle pid → ∃ p ∈ s.papers, p.id = pid) :
    selectionInvariant (stepSel em s) ∧ selectionInvariant (stepSelIdx ei s) := by
  have htog : ∀ pid, (∃ p ∈ s.papers, p.id = pid) →
      selectionInvariant (handlePaperSelect pid s) := by
    intro pid hpid x hx
    simp only [handlePaperSelect] at hx ⊢
    rw [mem_toggleSel] at hx
    rcases hx with ⟨rfl, _⟩ | ⟨_, hmem⟩
    · exact hpid
    · exact hs x hmem
  have hall : selectionInvariant (handleSelectAll s) := by
    intro x hx
    by_cases hlen : s.selectedPapers.length = s.papers.length
    · simp [handleSelectAll, hlen] at hx
    · simp only [handleSelectAll, if_neg hlen, List.mem_map] at hx ⊢
      obtain ⟨p, hp, rfl⟩ := hx
      exact ⟨p, hp, rfl⟩
  constructor
  · cases em with
    | toggle pid =>
        exact (selectionInvariant_clearChatEffect _).mpr
          (htog pid (hm pid rfl))
    | selectAll => exact (selectionInvariant_clearChatEffect _).mpr hall
    | clear =>
        intro x hx
        simp [stepSel, clearChatEffect, handleDeselectAll] at hx
  · cases ei with
    | toggle pid => exact htog pid (hi pid rfl)
    | selectAll => exact hall
    | remove =>
        by_cases hempty : s.selectedPapers.isEmpty = true
        · simpa [stepSelIdx, handleDeleteSelected, hempty] using hs
        · intro x hx
          simp [stepSelIdx, handleDeleteSelected, hempty] at hx

/-- Witness for C8 (amended): toggling the loaded paper `"p1"` in
`DeepDive.tsx` and removing the (empty) selection in `Deepdive/index.tsx`
both preserve the invariant on a concrete state. -/
theorem selection_invariant_preserved_witness :
    selectionInvariant
      (stepSel (SelEvent.toggle "p1") ⟨[paperP1], [], [], ""⟩) ∧
    selectionInvariant
      (stepSelIdx SelEventIdx.remove ⟨[paperP1], [], [], ""⟩) :=
  selection_invariant_preserved _ _ _ (by decide)
    (fun pid hp => by
      cases hp
      exact ⟨paperP1, by simp, rfl⟩)
    (fun pid hp => nomatch hp)

/-! ### C9 — resolution against an empty transcript appends nothing -/

/-- **C9.** If a chat request resolves (successfully or not) while the
transcript is empty — e.g. a selection change cleared it in flight — the
transcript stays empty: the mapping over the previous turns creates nothing. -/
theorem resolution_on_empty_transcript (m r : String) :
    resolveSuccess m r [] = [] ∧ resolveFailure m [] = [] :=
  ⟨rfl, rfl⟩

/-! ### C2 — the drag commits the stale pre-drag position, not the final
move's fraction -/

/-- **C2 (code bug).** The spec's scenario (duration 600, track `[0, 100]`,
media mounted, drag started at `currentTime = 0`, one pointer move to x = 50,
then release): the displayed position reaches 300 = clamp(0.5, 0, 1) · 600
and no pointer move writes the media — both as the claim says — but the
`mouseup` listener, registered by the `useEffect` keyed on `[isDragging]`,
runs the drag-start render's `handleDragEnd` closure, whose captured
`currentTime` is the pre-drag value 0.  The single media write is therefore
0, not the final move's clamped fraction times the duration (300): the
committed seek is the position the playback already had when the drag began. -/
theorem drag_commits_stale_position :
    (processDragListener (handleDragStart ⟨false, 0, 600, false, some 0, []⟩)
        ⟨0, 100⟩ [50]
        (handleDragStart ⟨false, 0, 600, false, some 0, []⟩)).currentTime
      = 300 ∧
    (processDragListener (handleDragStart ⟨false, 0, 600, false, some 0, []⟩)
        ⟨0, 100⟩ [50]
        (handleDragStart ⟨false, 0, 600, false, some 0, []⟩)).mediaWrites
      = [] ∧
    (dragGesture ⟨0, 100⟩ [50] ⟨false, 0, 600, false, some 0, []⟩).mediaWrites
      = [0] ∧
    clamp01 ((50 - 0) / 100) * 600 = (300 : ℚ) ∧
    (0 : ℚ) ≠ 300 := by
  have h1 : (processDragListener
        (handleDragStart ⟨false, 0, 600, false, some 0, []⟩) ⟨0, 100⟩ [50]
        (handleDragStart ⟨false, 0, 600, false, some 0, []⟩)).currentTime
      = max 0 (min ((50 : ℚ) - 0) 100) / 100 * 600 := rfl
  have h3 : (dragGesture ⟨0, 100⟩ [50]
        ⟨false, 0, 600, false, some 0, []⟩).mediaWrites
      = [(0 : ℚ) / 600 * 600] := rfl
  refine ⟨?_, rfl, ?_, ?_, by norm_num⟩
  · rw [h1, show ((50 : ℚ) - 0) = 50 by norm_num,
      min_eq_left (by norm_num : (50 : ℚ) ≤ 100),
      max_eq_right (by norm_num : (0 : ℚ) ≤ 50)]
    norm_num
  · rw [h3, show (0 : ℚ) / 600 * 600 = 0 by norm_num]
  · simp only [clamp01]
    rw [show ((50 : ℚ) - 0) / 100 = 1 / 2 by norm_num,
      min_eq_left (by norm_num : (1 : ℚ) / 2 ≤ 1),
      max_eq_right (by norm_num : (0 : ℚ) ≤ 1 / 2)]
    norm_num

/-! ### C3 — seekAtPoint: the code does not clamp -/

/-- Counterexample to C3 as stated: a pointer offset 10 px left of the track
(`clientX = -10` against a track at `left = 0`, `width = 100`, duration 613,
not dragging, media mounted) makes `handleProgressClick` set
`currentTime = (-10/100)*613 < 0`, whereas the claimed clamped value is `0`:
the handler computes `x = clientX - rect.left` without any clamping. -/
theorem seek_at_point_clamp_counterexample :
    (handleProgressClick (-10) (some ⟨0, 100⟩)
        ⟨false, 0, 613, false, some 0, []⟩).currentTime
      ≠ clamp01 ((-10 - 0) / 100) * 613 := by
  norm_num [handleProgressClick, writeMedia, clamp01]

/-- **C3 (amended).** While not dragging, with the track mounted (positive
width) and the media element mounted, `handleProgressClick` sets
`currentTime = ((pointerX - left) / width) * duration` — the raw, unclamped
proportion — and forwards exactly that value to the media position; the left
edge yields 0 and the right edge yields the full duration, but offsets
outside the track bounds are extrapolated, not clamped into `[0, duration]`. -/
theorem seek_at_point_unclamped (s : AudioState) (rect : Rect)
    (clientX m : ℚ) (hdrag : s.isDragging = false) (hmedia : s.media = some m)
    (hw : 0 < rect.width) :
    (handleProgressClick clientX (some rect) s).currentTime
        = ((clientX - rect.left) / rect.width) * s.duration ∧
    (handleProgressClick clientX (some rect) s).mediaWrites
        = s.mediaWrites
            ++ [((clientX - rect.left) / rect.width) * s.duration] ∧
    (clientX = rect.left →
        ((clientX - rect.left) / rect.width) * s.duration = 0) ∧
    (clientX = rect.left + rect.width →
        ((clientX - rect.left) / rect.width) * s.duration = s.duration) := by
  refine ⟨?_, ?_, ?_, ?_⟩
  · simp [handleProgressClick, hdrag, hmedia, writeMedia]
  · simp [handleProgressClick, hdrag, hmedia, writeMedia]
  · intro h; rw [h]; simp
  · intro h; rw [h]
    have : rect.left + rect.width - rect.left = rect.width := by ring
    rw [this, div_self hw.ne', one_mul]

/-- Witness for C3 (amended): a click at x = 25 on the `[0, 100]` track with
duration 613 sets and forwards `currentTime = 153.25 = (25/100)*613`. -/
theorem seek_at_point_unclamped_witness :
    (handleProgressClick 25 (some ⟨0, 100⟩)
        ⟨false, 0, 613, false, some 0, []⟩).currentTime
      = ((25 - 0) / 100) * 613 := by
  have h := seek_at_point_unclamped ⟨false, 0, 613, false, some 0, []⟩
    ⟨0, 100⟩ 25 0 rfl rfl (by norm_num)
  exact h.1

/-! ### C10 — dragEnd with no media element changes nothing -/

/-- **C10.** If `handleDragEnd` fires while dragging but the media element is
not mounted, the whole state is unchanged: no media write happens and
`isDragging` remains `true` (the drag is not terminated). -/
theorem dragEnd_noop_without_media (s : AudioState)
    (_hdrag : s.isDragging = true) (hmedia : s.media = none) :
    handleDragEnd s = s := by
  simp [handleDragEnd, hmedia]

/-- Witness for C10: a concrete mid-drag state with no media element is left
untouched by `handleDragEnd`. -/
theorem dragEnd_noop_without_media_witness :
    handleDragEnd ⟨false, 300, 613, true, none, []⟩
      = ⟨false, 300, 613, true, none, []⟩ :=
  dragEnd_noop_without_media _ rfl rfl

end DeepSense
